import Mathlib

/-!
Shallow embedding of the `location_profiler` repository
(`src/location_profiler.py` and `src/mcp_location_server.py`) and proofs
about it.

Modelling conventions:
* Python `datetime` values are modelled as `Int` minutes since an epoch;
  `timedelta.days` (floor division of the difference) becomes
  `Int.fdiv (a - b) 1440`.  A batch "file date" (parsed from `YYYYMMDD`)
  is a midnight timestamp, i.e. a multiple of 1440.
* Python floats are modelled as `ℚ` (the code's arithmetic is read
  literally: `x * rate + 1`, `0.5 * a + 0.5 * b`, ...).
* `networkx.DiGraph` node and adjacency dictionaries preserve insertion
  order; they are modelled as association lists in insertion order, with
  in-place value replacement on key update (matching Python `dict`
  semantics).  Updating or reading the attribute dict of a node/edge is
  modelled as reading the association-list entry, building the updated
  record, and writing it back.
* Raised Python exceptions are modelled with `Option`/`Except`: `none`
  or `.error` is the raised exception, and a propagated exception during
  an update leaves the in-memory state unchanged.
* Filename-date parsing (`datetime.strptime(date_part, "%Y%m%d")`) and
  row parsing (`datetime.fromisoformat`) are abstracted as `Option`
  valued fields of the raw input: `none` is a value whose parse raises.
-/

namespace LocationProfiler

/-! ## Time model -/

def minutesPerDay : Int := 1440

/-- Python `(a - b).days` on `datetime` values: floor of the difference in
days. -/
def daysBetween (a b : Int) : Int := Int.fdiv (a - b) minutesPerDay

/-- Hour of day of a timestamp, Python `ts.hour`. -/
def hourOf (t : Int) : Int := (Int.fdiv t 60) % 24

/-- Weekday of a timestamp, Python `ts.weekday()` (0 = Monday); the epoch
offset 3 makes day 0 of the model epoch a Thursday, as for the Unix epoch. -/
def weekdayOf (t : Int) : Int := (Int.fdiv t minutesPerDay + 3) % 7

/-- Bucket key `f"{weekday}_{hour}"`. -/
def mkBucket (w h : Int) : String := toString w ++ "_" ++ toString h

/-- Bucket key of a transition timestamp, `f"{ts.weekday()}_{ts.hour}"`. -/
def bucketOf (t : Int) : String := mkBucket (weekdayOf t) (hourOf t)

/-! ## Association lists (Python dicts in insertion order) -/

/-- Dict lookup `d.get(k)` over an insertion-ordered association list. -/
def getA {κ α : Type} [DecidableEq κ] : List (κ × α) → κ → Option α
  | [], _ => none
  | kv :: rest, k => if kv.1 = k then some kv.2 else getA rest k

/-- Dict store `d[k] = v`: replace in place when the key is present
(keeping its position, as Python dicts do), append otherwise. -/
def setA {κ α : Type} [DecidableEq κ] : List (κ × α) → κ → α → List (κ × α)
  | [], k, v => [(k, v)]
  | kv :: rest, k, v => if kv.1 = k then (k, v) :: rest else kv :: setA rest k v

theorem getA_setA {κ α : Type} [DecidableEq κ] (l : List (κ × α)) (k : κ) (v : α) :
    getA (setA l k v) k = some v := by
  induction l with
  | nil => simp [setA, getA]
  | cons kv rest ih =>
      by_cases h : kv.1 = k
      · simp [setA, h, getA]
      · simp [setA, h, getA, ih]

theorem getA_eq_none_iff {κ α : Type} [DecidableEq κ] (l : List (κ × α)) (k : κ) :
    getA l k = none ↔ k ∉ l.map (·.1) := by
  induction l with
  | nil => simp [getA]
  | cons kv rest ih =>
      simp only [getA, List.map_cons, List.mem_cons]
      by_cases h : kv.1 = k
      · simp [h]
      · rw [if_neg h, ih]
        constructor
        · intro hn hmem
          rcases hmem with hmem | hmem
          · exact h hmem.symm
          · exact hn hmem
        · intro hn hmem
          exact hn (Or.inr hmem)

/-! ## Graph data model (`networkx.DiGraph` attribute records) -/

/-- Node attribute record, as created by `update_graph`
(`visits_30d`, `visits_365d`, `last_visit_ts`, `score`, `active`). -/
structure NodeData where
  visits_30d : ℚ
  visits_365d : ℚ
  last_visit_ts : Option Int
  score : ℚ
  active : Bool
deriving DecidableEq, Repr

/-- Edge attribute record (`transitions_30d`, `transitions_365d`,
`last_transition_ts`, `time_buckets`, `score`, `active`). -/
structure EdgeData where
  transitions_30d : ℚ
  transitions_365d : ℚ
  last_transition_ts : Option Int
  time_buckets : List (String × Nat)
  score : ℚ
  active : Bool
deriving DecidableEq, Repr

/-- The directed graph: nodes and edges in insertion order, keyed by
place id and by ordered pair of place ids respectively. -/
structure Graph where
  nodes : List (String × NodeData)
  edges : List ((String × String) × EdgeData)
deriving DecidableEq, Repr

/-- Fresh node attributes, `add_node(..., visits_30d=0.0, ...)`. -/
def defaultNode : NodeData :=
  { visits_30d := 0, visits_365d := 0, last_visit_ts := none, score := 0, active := true }

/-- Fresh edge attributes, `add_edge(..., transitions_30d=0.0, ...)`. -/
def defaultEdge : EdgeData :=
  { transitions_30d := 0, transitions_365d := 0, last_transition_ts := none,
    time_buckets := [], score := 0, active := true }

/-- Configuration of `LocationGraphUpdater` (decay_rate, visit_threshold,
inactive_days_threshold). -/
structure Config where
  decay_rate : ℚ
  visit_threshold : ℚ
  inactive_days_threshold : Int
deriving DecidableEq, Repr

/-- One staypoint row `(place_id, start, end)`. -/
structure Visit where
  place : String
  start : Int
  stop : Int
deriving DecidableEq, Repr

/-- Mutable state of the updater: the graph plus the watermark
(`self.last_update`, `None` before any batch is processed). -/
structure State where
  graph : Graph
  last_update : Option Int
deriving DecidableEq, Repr

/-! ## DecayScorer: `update_graph` -/

/-- Body of the per-visit loop of `update_graph` (lines 89-112 of
`location_profiler.py`): create the node if absent, decay both counters by
`decay_rate`, increment both by 1, set `last_visit_ts` to the visit start,
set `active`, and recompute the score from the new counter and the
recency term `1 / max(1, (file_date - last_visit_ts).days)`. -/
def processVisit (cfg : Config) (file_date : Int) (g : Graph) (v : Visit) : Graph :=
  let nd := (getA g.nodes v.place).getD defaultNode
  let nd := { nd with
    visits_30d := cfg.decay_rate * nd.visits_30d + 1,
    visits_365d := cfg.decay_rate * nd.visits_365d + 1,
    last_visit_ts := some v.start,
    active := true }
  let days : Int := max 1 (daysBetween file_date v.start)
  let nd := { nd with
    score := (1/2 : ℚ) * (nd.visits_30d / 30) + (1/2 : ℚ) * (1 / (days : ℚ)) }
  { g with nodes := setA g.nodes v.place nd }

/-- Dict read `time_buckets.get(bucket, 0)`. -/
def bucketGet (tb : List (String × Nat)) (b : String) : Nat :=
  (getA tb b).getD 0

/-- Dict update `time_buckets[bucket] = time_buckets.get(bucket, 0) + 1`. -/
def bucketIncr (tb : List (String × Nat)) (b : String) : List (String × Nat) :=
  setA tb b (bucketGet tb b + 1)

/-- Body of the per-transition loop of `update_graph` (lines 114-143):
the consecutive pair `(src, dst)` observed at timestamp `ts`. -/
def processTransition (cfg : Config) (file_date : Int) (g : Graph)
    (src dst : String) (ts : Int) : Graph :=
  let ed := (getA g.edges (src, dst)).getD defaultEdge
  let ed := { ed with
    transitions_30d := cfg.decay_rate * ed.transitions_30d + 1,
    transitions_365d := cfg.decay_rate * ed.transitions_365d + 1,
    last_transition_ts := some ts,
    time_buckets := bucketIncr ed.time_buckets (bucketOf ts),
    active := true }
  let days : Int := max 1 (daysBetween file_date ts)
  let ed := { ed with
    score := (1/2 : ℚ) * (ed.transitions_30d / 30) + (1/2 : ℚ) * (1 / (days : ℚ)) }
  { g with edges := setA g.edges (src, dst) ed }

/-- Consecutive pairs of a day's staypoint sequence, with the transition
timestamp taken from the second visit's start (`for i in range(1, len)`). -/
def transPairs : List Visit → List (String × String × Int)
  | a :: b :: rest => (a.place, b.place, b.start) :: transPairs (b :: rest)
  | _ => []

/-- Processing of one `(file_date, staypoints)` batch inside
`update_graph`: all visits in order, then all consecutive-pair
transitions, then the watermark advances to the batch date. -/
def processBatch (cfg : Config) (st : State) (b : Int × List Visit) : State :=
  let g1 := b.2.foldl (fun g v => processVisit cfg b.1 g v) st.graph
  let g2 := (transPairs b.2).foldl
    (fun g t => processTransition cfg b.1 g t.1 t.2.1 t.2.2) g1
  { graph := g2, last_update := some b.1 }

/-- `update_graph(daily_data)`: apply each day's batch in list order. -/
def update_graph (cfg : Config) (daily_data : List (Int × List Visit)) (st : State) : State :=
  daily_data.foldl (processBatch cfg) st

/-! ## Claims C1 and C4 -/

/-- C1: for every existing node touched by a visit during `update_graph`,
each counter after the visit equals `decay_rate * previous + 1` (decay is
applied exactly once, before the increment of 1), and with a decay rate in
(0,1) both counters stay non-negative. -/
theorem c1_decay_recurrence (cfg : Config) (g : Graph) (file_date : Int) (v : Visit)
    (d : NodeData) (hget : getA g.nodes v.place = some d)
    (hr0 : 0 < cfg.decay_rate) (hr1 : cfg.decay_rate < 1)
    (h30 : 0 ≤ d.visits_30d) (h365 : 0 ≤ d.visits_365d) :
    ∃ d', getA (processVisit cfg file_date g v).nodes v.place = some d' ∧
      d'.visits_30d = cfg.decay_rate * d.visits_30d + 1 ∧
      d'.visits_365d = cfg.decay_rate * d.visits_365d + 1 ∧
      0 ≤ d'.visits_30d ∧ 0 ≤ d'.visits_365d := by
  simp only [processVisit, hget, Option.getD_some]
  refine ⟨_, getA_setA .., rfl, rfl, ?_, ?_⟩
  · have := mul_nonneg hr0.le h30
    simp only []
    linarith
  · have := mul_nonneg hr0.le h365
    simp only []
    linarith

/-- Witness for C1 at a concrete node. -/
theorem c1_decay_recurrence_witness :
    ∃ d', getA (processVisit ⟨19/20, 3, 60⟩ 0
        ⟨[("home", { visits_30d := 2, visits_365d := 4, last_visit_ts := some (-1440),
                     score := 0, active := true })], []⟩
        ⟨"home", 480, 500⟩).nodes "home" = some d' ∧
      d'.visits_30d = (19/20 : ℚ) * 2 + 1 ∧
      d'.visits_365d = (19/20 : ℚ) * 4 + 1 ∧
      0 ≤ d'.visits_30d ∧ 0 ≤ d'.visits_365d :=
  c1_decay_recurrence ⟨19/20, 3, 60⟩
    ⟨[("home", { visits_30d := 2, visits_365d := 4, last_visit_ts := some (-1440),
                 score := 0, active := true })], []⟩
    0 ⟨"home", 480, 500⟩
    { visits_30d := 2, visits_365d := 4, last_visit_ts := some (-1440),
      score := 0, active := true }
    rfl (by norm_num) (by norm_num) (by norm_num) (by norm_num)

/-- C4: immediately after `update_graph` processes a visit whose start
lies on the batch date `d` (i.e. within the day starting at the midnight
timestamp `file_date`), the node's score is `0.5 * (visits_30d / 30) + 0.5`:
the recency denominator `max(1, (file_date - last_visit_ts).days)` clamps
to 1 because the day difference is 0 or -1. -/
theorem c4_recency_clamped (cfg : Config) (g : Graph) (file_date : Int) (v : Visit)
    (h1 : file_date ≤ v.start) (_h2 : v.start < file_date + minutesPerDay) :
    ∃ d', getA (processVisit cfg file_date g v).nodes v.place = some d' ∧
      d'.score = (1/2 : ℚ) * (d'.visits_30d / 30) + (1/2 : ℚ) := by
  have hz : file_date - v.start ≤ 0 := by omega
  have hdays : max 1 (daysBetween file_date v.start) = 1 := by
    have hle : daysBetween file_date v.start ≤ 0 := by
      unfold daysBetween minutesPerDay
      rcases lt_or_eq_of_le hz with hlt | heq
      · exact le_of_lt (Int.fdiv_neg' hlt (by decide))
      · rw [heq]
        simp
    omega
  simp only [processVisit, hdays]
  refine ⟨_, getA_setA .., ?_⟩
  norm_num

/-- Witness for C4 at a concrete visit on its batch date. -/
theorem c4_recency_clamped_witness :
    (∃ d', getA (processVisit ⟨19/20, 3, 60⟩ 2880 ⟨[], []⟩ ⟨"work", 3000, 3060⟩).nodes
        "work" = some d' ∧
      d'.score = (1/2 : ℚ) * (d'.visits_30d / 30) + (1/2 : ℚ)) :=
  c4_recency_clamped ⟨19/20, 3, 60⟩ ⟨[], []⟩ 2880 ⟨"work", 3000, 3060⟩
    (by decide) (by decide)

/-! ## StaypointLoader: `load_data` -/

/-- Errors raised inside `load_data`: `datetime.strptime` on a filename's
date part, or a malformed row (`KeyError` / `datetime.fromisoformat`). -/
inductive ParseFail where
  | badName : ParseFail
  | badRow : ParseFail
deriving DecidableEq, Repr

/-- A file of the input directory as seen by `load_data`: the outcome of
parsing the `YYYYMMDD` part of its (sorted) filename, and its rows, each
row being the outcome of parsing `(place_id, start_iso, end_iso)`. -/
structure RawFile where
  name_date : Option Int
  rows : List (Option Visit)
deriving DecidableEq, Repr

/-- First loop of `load_data` (lines 64-68): parse every filename's date
in listing order; the first unparseable filename raises. -/
def parseDates : List RawFile → Except ParseFail (List (Int × List (Option Visit)))
  | [] => .ok []
  | f :: fs =>
      match f.name_date with
      | none => .error .badName
      | some d =>
          match parseDates fs with
          | .error e => .error e
          | .ok rest => .ok ((d, f.rows) :: rest)

/-- Reading one CSV file (lines 73-81): rows in order; the first
malformed row raises. -/
def parseRows : List (Option Visit) → Except ParseFail (List Visit)
  | [] => .ok []
  | none :: _ => .error .badRow
  | some v :: rs =>
      match parseRows rs with
      | .error e => .error e
      | .ok rest => .ok (v :: rest)

/-- Second loop of `load_data` (lines 70-82) over the watermark-filtered
files. -/
def parseBatches : List (Int × List (Option Visit)) →
    Except ParseFail (List (Int × List Visit))
  | [] => .ok []
  | (d, rows) :: rest =>
      match parseRows rows with
      | .error e => .error e
      | .ok sps =>
          match parseBatches rest with
          | .error e => .error e
          | .ok r => .ok ((d, sps) :: r)

/-- Watermark test of line 67: keep a file when there is no watermark yet
or its date is strictly later. -/
def isNewFile (wm : Option Int) (d : Int) : Bool :=
  match wm with
  | none => true
  | some w => decide (w < d)

/-- `load_data(self)`: parse all filename dates, keep files strictly
after the watermark, then parse the rows of the kept files.  Any raised
exception aborts the whole call. -/
def load_data (wm : Option Int) (files : List RawFile) :
    Except ParseFail (List (Int × List Visit)) :=
  match parseDates files with
  | .error e => .error e
  | .ok dated => parseBatches (dated.filter (fun p => isNewFile wm p.1))

/-! ## PruningPolicy: `prune_graph` -/

/-- Staleness test for a node (lines 152-157): it has a last visit
timestamp, the days since it exceed the threshold, and the decayed
short-window counter is below the visit threshold. -/
def staleNode (cfg : Config) (wm : Int) (d : NodeData) : Bool :=
  match d.last_visit_ts with
  | none => false
  | some t =>
      decide (cfg.inactive_days_threshold < daysBetween wm t) &&
      decide (d.visits_30d < cfg.visit_threshold)

/-- Staleness test for an edge (lines 158-163). -/
def staleEdge (cfg : Config) (wm : Int) (d : EdgeData) : Bool :=
  match d.last_transition_ts with
  | none => false
  | some t =>
      decide (cfg.inactive_days_threshold < daysBetween wm t) &&
      decide (d.transitions_30d < cfg.visit_threshold)

/-- Marking phase of `prune_graph`: set `active = False` on every stale
node and edge; nothing is ever set back to `True` here. -/
def markGraph (cfg : Config) (wm : Int) (g : Graph) : Graph :=
  { nodes := g.nodes.map (fun p =>
      if staleNode cfg wm p.2 then (p.1, { p.2 with active := false }) else p),
    edges := g.edges.map (fun e =>
      if staleEdge cfg wm e.2 then (e.1, { e.2 with active := false }) else e) }

/-- Hard-prune phase (lines 166-171): remove every inactive node (which,
as in `networkx`, removes all edges incident to it), then remove every
remaining inactive edge. -/
def hardPrune (g : Graph) : Graph :=
  let inactiveIds := (g.nodes.filter (fun p => !p.2.active)).map (·.1)
  let keptNodes := g.nodes.filter (fun p => p.2.active)
  let keptEdges := g.edges.filter (fun e =>
    !(decide (e.1.1 ∈ inactiveIds)) && !(decide (e.1.2 ∈ inactiveIds)))
  { nodes := keptNodes, edges := keptEdges.filter (fun e => e.2.active) }

/-- `prune_graph(self, prune)`: mark, then physically remove when the
hard-prune flag is set.  `self.last_update` (assumed set by the caller,
as in `run`) is passed explicitly as `wm`. -/
def prune_graph (cfg : Config) (hard : Bool) (wm : Int) (g : Graph) : Graph :=
  let g := markGraph cfg wm g
  if hard then hardPrune g else g

/-! ## The update cycle: `run` -/

/-- One invocation of `LocationGraphUpdater.run` as a state transformer
(lines 209-222): load the new batches; if there are none, return with the
state untouched; a raised parse exception likewise leaves the in-memory
state unchanged (and nothing is persisted); otherwise apply
`update_graph` then `prune_graph`.  After a non-empty update the
watermark is always set, so the unreachable `none` branch returns the
updated state as-is. -/
def run (cfg : Config) (files : List RawFile) (hard : Bool) (st : State) : State :=
  match load_data st.last_update files with
  | .error _ => st
  | .ok [] => st
  | .ok daily =>
      let st1 := update_graph cfg daily st
      match st1.last_update with
      | none => st1
      | some w => { st1 with graph := prune_graph cfg hard w st1.graph }

/-! ## Claim C2: stale batches are a no-op -/

theorem parseDates_all_old {w : Int} :
    ∀ files : List RawFile,
    (∀ f ∈ files, ∃ d, f.name_date = some d ∧ d ≤ w) →
    ∃ dated, parseDates files = .ok dated ∧
      dated.filter (fun p => isNewFile (some w) p.1) = [] := by
  intro files
  induction files with
  | nil => intro _; exact ⟨[], rfl, rfl⟩
  | cons f fs ih =>
      intro h
      obtain ⟨d, hd, hdw⟩ := h f (by simp)
      obtain ⟨rest, hrest, hfilt⟩ := ih (fun f' hf' => h f' (by simp [hf']))
      refine ⟨(d, f.rows) :: rest, ?_, ?_⟩
      · simp [parseDates, hd, hrest]
      · have : isNewFile (some w) d = false := by
          simp [isNewFile]
          omega
        simp [List.filter, this, hfilt]

/-- C2: re-invoking the update operation when every available batch is
dated on or before the current watermark is a no-op: the whole state
(graph, all node/edge attributes, and the watermark) is returned
unchanged, because `load_data` filters out every batch. -/
theorem c2_stale_batches_noop (cfg : Config) (files : List RawFile) (hard : Bool)
    (st : State) (w : Int) (hw : st.last_update = some w)
    (hold : ∀ f ∈ files, ∃ d, f.name_date = some d ∧ d ≤ w) :
    run cfg files hard st = st := by
  obtain ⟨dated, hdated, hfilt⟩ := parseDates_all_old files hold
  have hld : load_data st.last_update files = .ok [] := by
    rw [load_data, hdated]
    show parseBatches (dated.filter (fun p => isNewFile st.last_update p.1)) = .ok []
    rw [hw, hfilt]
    rfl
  rw [run, hld]

/-- Witness for C2: a two-file listing dated on/before the watermark. -/
theorem c2_stale_batches_noop_witness :
    run ⟨19/20, 3, 60⟩
      [⟨some 1440, [some ⟨"home", 1500, 1560⟩]⟩, ⟨some 2880, []⟩] true
      ⟨⟨[("home", defaultNode)], []⟩, some 2880⟩ =
    ⟨⟨[("home", defaultNode)], []⟩, some 2880⟩ :=
  c2_stale_batches_noop ⟨19/20, 3, 60⟩
    [⟨some 1440, [some ⟨"home", 1500, 1560⟩]⟩, ⟨some 2880, []⟩] true
    ⟨⟨[("home", defaultNode)], []⟩, some 2880⟩ 2880 rfl
    (by
      intro f hf
      simp only [List.mem_cons, List.not_mem_nil, or_false] at hf
      rcases hf with hf | hf <;> subst hf
      · exact ⟨1440, rfl, by omega⟩
      · exact ⟨2880, rfl, by omega⟩)

/-! ## Claim C7: no per-batch failure isolation in `load_data` -/

/-- Counterexample to C7: the directory holds one valid new batch
(day 2) and one new batch with a malformed row (day 3); `load_data`
raises for the whole call, so the valid batch is not parsed or processed
either, contradicting per-batch failure isolation. -/
theorem c7_counterexample :
    load_data (some 1440)
      [⟨some 2880, [some ⟨"home", 2900, 2960⟩]⟩,
       ⟨some 4320, [some ⟨"home", 4400, 4460⟩, none]⟩] =
    .error ParseFail.badRow := by
  rfl

theorem parseDates_err_of_badName {f : RawFile} :
    ∀ {files : List RawFile}, f ∈ files → f.name_date = none →
    ∃ e, parseDates files = .error e := by
  intro files
  induction files with
  | nil => intro h _; exact absurd h (List.not_mem_nil f)
  | cons g gs ih =>
      intro hmem hnone
      unfold parseDates
      match hg : g.name_date with
      | none => exact ⟨.badName, rfl⟩
      | some dg =>
          have hmem' : f ∈ gs := by
            rcases List.mem_cons.mp hmem with rfl | h
            · rw [hnone] at hg; exact absurd hg (by simp)
            · exact h
          obtain ⟨e, he⟩ := ih hmem' hnone
          rw [he]
          exact ⟨e, rfl⟩

theorem parseRows_err_of_none :
    ∀ {rs : List (Option Visit)}, none ∈ rs → ∃ e, parseRows rs = .error e := by
  intro rs
  induction rs with
  | nil => intro h; exact absurd h (List.not_mem_nil _)
  | cons r rs ih =>
      intro hmem
      match r with
      | none => exact ⟨.badRow, rfl⟩
      | some v =>
          have hmem' : none ∈ rs := by
            rcases List.mem_cons.mp hmem with h | h
            · exact absurd h (by simp)
            · exact h
          obtain ⟨e, he⟩ := ih hmem'
          exact ⟨e, by rw [parseRows, he]⟩

theorem parseDates_ok_mem {f : RawFile} {d : Int} :
    ∀ {files : List RawFile} {dd : List (Int × List (Option Visit))},
    parseDates files = .ok dd → f ∈ files → f.name_date = some d →
    (d, f.rows) ∈ dd := by
  intro files
  induction files with
  | nil => intro dd _ h _; exact absurd h (List.not_mem_nil f)
  | cons g gs ih =>
      intro dd hpd hmem hd
      unfold parseDates at hpd
      split at hpd
      · exact absurd hpd (by simp)
      · rename_i dg hg
        split at hpd
        · exact absurd hpd (by simp)
        · rename_i rest hrec
          simp only [Except.ok.injEq] at hpd
          subst hpd
          rcases List.mem_cons.mp hmem with rfl | hmem'
          · rw [hd] at hg
            simp only [Option.some.injEq] at hg
            subst hg
            exact List.mem_cons_self _ _
          · exact List.mem_cons_of_mem _ (ih hrec hmem' hd)

theorem parseBatches_err_of_mem {d : Int} {rows : List (Option Visit)} {e0 : ParseFail} :
    ∀ {l : List (Int × List (Option Visit))}, (d, rows) ∈ l →
    parseRows rows = .error e0 → ∃ e, parseBatches l = .error e := by
  intro l
  induction l with
  | nil => intro h _; exact absurd h (List.not_mem_nil _)
  | cons b bs ih =>
      intro hmem he0
      unfold parseBatches
      match b with
      | (db, rowsb) =>
          match hrb : parseRows rowsb with
          | .error e => exact ⟨e, rfl⟩
          | .ok sps =>
              have hmem' : (d, rows) ∈ bs := by
                rcases List.mem_cons.mp hmem with heq | h
                · have : rowsb = rows := congrArg Prod.snd heq.symm
                  rw [this, he0] at hrb
                  exact absurd hrb (by simp)
                · exact h
              obtain ⟨e, he⟩ := ih hmem' he0
              rw [he]
              exact ⟨e, rfl⟩

/-- C7 amended: a malformed batch aborts the whole load, it is not
isolated.  If any filename's date fails to parse, or any row of any
batch selected by the watermark fails to parse, `load_data` raises and
returns no batches at all. -/
theorem c7_no_isolation (wm : Option Int) (files : List RawFile)
    (h : (∃ f ∈ files, f.name_date = none) ∨
         (∃ f ∈ files, ∃ d, f.name_date = some d ∧ isNewFile wm d = true ∧
            none ∈ f.rows)) :
    ∃ e, load_data wm files = .error e := by
  rcases h with ⟨f, hf, hnone⟩ | ⟨f, hf, d, hd, hnew, hrow⟩
  · obtain ⟨e, he⟩ := parseDates_err_of_badName hf hnone
    exact ⟨e, by rw [load_data, he]⟩
  · obtain ⟨e0, he0⟩ := parseRows_err_of_none hrow
    unfold load_data
    match hpd : parseDates files with
    | .error e => exact ⟨e, rfl⟩
    | .ok dated =>
        have hmemf : (d, f.rows) ∈ dated.filter (fun p => isNewFile wm p.1) :=
          List.mem_filter.mpr ⟨parseDates_ok_mem hpd hf hd, hnew⟩
        exact parseBatches_err_of_mem hmemf he0

/-- Witness for C7's amended statement. -/
theorem c7_no_isolation_witness :
    ∃ e, load_data (some 1440)
      [⟨some 2880, [some ⟨"home", 2900, 2960⟩]⟩,
       ⟨some 4320, [some ⟨"home", 4400, 4460⟩, none]⟩] = .error e :=
  c7_no_isolation (some 1440)
    [⟨some 2880, [some ⟨"home", 2900, 2960⟩]⟩,
     ⟨some 4320, [some ⟨"home", 4400, 4460⟩, none]⟩]
    (Or.inr ⟨⟨some 4320, [some ⟨"home", 4400, 4460⟩, none]⟩, by simp, 4320,
      rfl, by decide, by simp⟩)

/-! ## Claim C3: the pruning classification -/

theorem staleNode_iff (cfg : Config) (wm t : Int) (d : NodeData)
    (h : d.last_visit_ts = some t) :
    staleNode cfg wm d = true ↔
      (cfg.inactive_days_threshold < daysBetween wm t ∧
       d.visits_30d < cfg.visit_threshold) := by
  unfold staleNode
  rw [h]
  simp

theorem staleEdge_iff (cfg : Config) (wm t : Int) (d : EdgeData)
    (h : d.last_transition_ts = some t) :
    staleEdge cfg wm d = true ↔
      (cfg.inactive_days_threshold < daysBetween wm t ∧
       d.transitions_30d < cfg.visit_threshold) := by
  unfold staleEdge
  rw [h]
  simp

theorem markGraph_node_keys (cfg : Config) (wm : Int) (g : Graph) :
    (markGraph cfg wm g).nodes.map (·.1) = g.nodes.map (·.1) := by
  simp only [markGraph]
  rw [List.map_map]
  apply List.map_congr_left
  intro p _
  by_cases hs : staleNode cfg wm p.2 <;> simp [hs]

/-- C3: after the marking pass (which is the soft-prune result), a node
or edge carrying a last-activity timestamp is inactive iff its days
since activity exceed the threshold and its decayed short-window counter
is below the visit threshold — given the update-cycle invariant that
everything already inactive on entry satisfies the staleness condition
(the pass never reactivates).  Under hard-prune mode the resulting graph
has no inactive node, no inactive edge, and no edge referencing a
removed node (given that edge endpoints exist as nodes, as `networkx`
guarantees). -/
theorem c3_prune_classification (cfg : Config) (wm : Int) (g : Graph)
    (hwf : ∀ e ∈ g.edges, e.1.1 ∈ g.nodes.map (·.1) ∧ e.1.2 ∈ g.nodes.map (·.1))
    (hinvN : ∀ p ∈ g.nodes, p.2.active = false → staleNode cfg wm p.2 = true)
    (hinvE : ∀ e ∈ g.edges, e.2.active = false → staleEdge cfg wm e.2 = true) :
    (∀ p ∈ (prune_graph cfg false wm g).nodes, ∀ t, p.2.last_visit_ts = some t →
       (p.2.active = false ↔
        (cfg.inactive_days_threshold < daysBetween wm t ∧
         p.2.visits_30d < cfg.visit_threshold))) ∧
    (∀ e ∈ (prune_graph cfg false wm g).edges, ∀ t, e.2.last_transition_ts = some t →
       (e.2.active = false ↔
        (cfg.inactive_days_threshold < daysBetween wm t ∧
         e.2.transitions_30d < cfg.visit_threshold))) ∧
    (∀ p ∈ (prune_graph cfg true wm g).nodes, p.2.active = true) ∧
    (∀ e ∈ (prune_graph cfg true wm g).edges, e.2.active = true) ∧
    (∀ e ∈ (prune_graph cfg true wm g).edges,
       e.1.1 ∈ (prune_graph cfg true wm g).nodes.map (·.1) ∧
       e.1.2 ∈ (prune_graph cfg true wm g).nodes.map (·.1)) := by
  have hsoft : prune_graph cfg false wm g = markGraph cfg wm g := rfl
  have hhard : prune_graph cfg true wm g = hardPrune (markGraph cfg wm g) := rfl
  refine ⟨?_, ?_, ?_, ?_, ?_⟩
  · -- node classification
    rw [hsoft]
    intro p hp t ht
    obtain ⟨q, hq, hfq⟩ := List.mem_map.mp hp
    by_cases hs : staleNode cfg wm q.2 = true
    · rw [if_pos hs] at hfq
      subst hfq
      have hts : q.2.last_visit_ts = some t := ht
      constructor
      · intro _
        exact (staleNode_iff cfg wm t q.2 hts).mp hs
      · intro _
        rfl
    · rw [if_neg hs] at hfq
      subst hfq
      constructor
      · intro ha
        exact absurd (hinvN q hq ha) hs
      · intro hcond
        exact absurd ((staleNode_iff cfg wm t q.2 ht).mpr hcond) hs
  · -- edge classification
    rw [hsoft]
    intro e he t ht
    obtain ⟨q, hq, hfq⟩ := List.mem_map.mp he
    by_cases hs : staleEdge cfg wm q.2 = true
    · rw [if_pos hs] at hfq
      subst hfq
      have hts : q.2.last_transition_ts = some t := ht
      constructor
      · intro _
        exact (staleEdge_iff cfg wm t q.2 hts).mp hs
      · intro _
        rfl
    · rw [if_neg hs] at hfq
      subst hfq
      constructor
      · intro ha
        exact absurd (hinvE q hq ha) hs
      · intro hcond
        exact absurd ((staleEdge_iff cfg wm t q.2 ht).mpr hcond) hs
  · -- hard prune: no inactive node survives
    rw [hhard]
    intro p hp
    exact (List.mem_filter.mp hp).2
  · -- hard prune: no inactive edge survives
    rw [hhard]
    intro e he
    exact (List.mem_filter.mp he).2
  · -- hard prune: surviving edges reference surviving nodes
    rw [hhard]
    intro e he
    have he1 := List.mem_filter.mp he
    have he2 := List.mem_filter.mp he1.1
    have hcond := he2.2
    simp only [Bool.and_eq_true, Bool.not_eq_true', decide_eq_false_iff_not] at hcond
    obtain ⟨e0, he0, hfe0⟩ := List.mem_map.mp he2.1
    have hkeys : e.1 = e0.1 := by
      by_cases hs : staleEdge cfg wm e0.2 = true
      · rw [if_pos hs] at hfe0; rw [← hfe0]
      · rw [if_neg hs] at hfe0; rw [← hfe0]
    have hwf0 := hwf e0 he0
    rw [← hkeys] at hwf0
    rw [← markGraph_node_keys cfg wm g] at hwf0
    constructor
    · obtain ⟨q, hq, hq1⟩ := List.mem_map.mp hwf0.1
      have hqa : q.2.active = true := by
        by_contra hna
        apply hcond.1
        rw [← hq1]
        exact List.mem_map.mpr ⟨q, List.mem_filter.mpr ⟨hq, by simp [hna]⟩, rfl⟩
      exact List.mem_map.mpr ⟨q, List.mem_filter.mpr ⟨hq, hqa⟩, hq1⟩
    · obtain ⟨q, hq, hq1⟩ := List.mem_map.mp hwf0.2
      have hqa : q.2.active = true := by
        by_contra hna
        apply hcond.2
        rw [← hq1]
        exact List.mem_map.mpr ⟨q, List.mem_filter.mpr ⟨hq, by simp [hna]⟩, rfl⟩
      exact List.mem_map.mpr ⟨q, List.mem_filter.mpr ⟨hq, hqa⟩, hq1⟩

/-- Witness for C3 on a concrete graph: one fresh and one stale node,
one stale edge between them. -/
theorem c3_prune_classification_witness :
    (∀ p ∈ (prune_graph ⟨19/20, 3, 60⟩ false (100 * 1440)
        ⟨[("u", { visits_30d := 1, visits_365d := 1, last_visit_ts := some 0,
                  score := 0, active := true }),
          ("v", { visits_30d := 5, visits_365d := 5, last_visit_ts := some (99 * 1440),
                  score := 0, active := true })],
         [(("u", "v"), { transitions_30d := 1, transitions_365d := 1,
                         last_transition_ts := some 0, time_buckets := [],
                         score := 0, active := true })]⟩).nodes,
       ∀ t, p.2.last_visit_ts = some t →
       (p.2.active = false ↔
        ((60 : Int) < daysBetween (100 * 1440) t ∧ p.2.visits_30d < 3))) ∧
    (∀ p ∈ (prune_graph ⟨19/20, 3, 60⟩ true (100 * 1440)
        ⟨[("u", { visits_30d := 1, visits_365d := 1, last_visit_ts := some 0,
                  score := 0, active := true }),
          ("v", { visits_30d := 5, visits_365d := 5, last_visit_ts := some (99 * 1440),
                  score := 0, active := true })],
         [(("u", "v"), { transitions_30d := 1, transitions_365d := 1,
                         last_transition_ts := some 0, time_buckets := [],
                         score := 0, active := true })]⟩).nodes, p.2.active = true) := by
  have h := c3_prune_classification ⟨19/20, 3, 60⟩ (100 * 1440)
    ⟨[("u", { visits_30d := 1, visits_365d := 1, last_visit_ts := some 0,
              score := 0, active := true }),
      ("v", { visits_30d := 5, visits_365d := 5, last_visit_ts := some (99 * 1440),
              score := 0, active := true })],
     [(("u", "v"), { transitions_30d := 1, transitions_365d := 1,
                     last_transition_ts := some 0, time_buckets := [],
                     score := 0, active := true })]⟩
    (by decide) (by decide) (by decide)
  exact ⟨h.1, h.2.2.1⟩

/-! ## Claim C10: entities without a recorded timestamp -/

theorem staleNode_none (cfg : Config) (wm : Int) (d : NodeData)
    (h : d.last_visit_ts = none) : staleNode cfg wm d = false := by
  unfold staleNode
  rw [h]

theorem staleEdge_none (cfg : Config) (wm : Int) (d : EdgeData)
    (h : d.last_transition_ts = none) : staleEdge cfg wm d = false := by
  unfold staleEdge
  rw [h]

/-- Counterexample to C10: an edge with `last_transition_ts = None` and
`active = True` is skipped by the classification, yet hard-prune mode
still removes it, by the cascade, when its source node is pruned. -/
theorem c10_counterexample :
    (prune_graph ⟨19/20, 3, 60⟩ true (100 * 1440)
      ⟨[("u", { visits_30d := 0, visits_365d := 0, last_visit_ts := some 0,
                score := 0, active := true }),
        ("v", { visits_30d := 0, visits_365d := 0, last_visit_ts := none,
                score := 0, active := true })],
       [(("u", "v"), { transitions_30d := 0, transitions_365d := 0,
                       last_transition_ts := none, time_buckets := [],
                       score := 0, active := true })]⟩).edges = [] ∧
    getA (⟨[("u", { visits_30d := 0, visits_365d := 0, last_visit_ts := some 0,
                    score := 0, active := true }),
            ("v", { visits_30d := 0, visits_365d := 0, last_visit_ts := none,
                    score := 0, active := true })],
           [(("u", "v"), { transitions_30d := 0, transitions_365d := 0,
                           last_transition_ts := none, time_buckets := [],
                           score := 0, active := true })]⟩ : Graph).edges
        ("u", "v") =
      some { transitions_30d := 0, transitions_365d := 0,
             last_transition_ts := none, time_buckets := [],
             score := 0, active := true } := by
  constructor
  · rfl
  · rfl

/-- C10 amended: the pruning pass never changes anything about a node or
edge whose last-activity timestamp is null (it is skipped by the
classification); an active null-timestamp node survives hard prune, and
an active null-timestamp edge survives the inactive-edge removal — but
it is removed by the cascade when an endpoint node is pruned, so its
survival additionally requires both endpoints to be active and
non-stale. -/
theorem c10_null_ts_skipped (cfg : Config) (wm : Int) (g : Graph) :
    (∀ k d, (k, d) ∈ g.nodes → d.last_visit_ts = none →
       (k, d) ∈ (prune_graph cfg false wm g).nodes) ∧
    (∀ kk d, (kk, d) ∈ g.edges → d.last_transition_ts = none →
       (kk, d) ∈ (prune_graph cfg false wm g).edges) ∧
    (∀ k d, (k, d) ∈ g.nodes → d.last_visit_ts = none → d.active = true →
       (k, d) ∈ (prune_graph cfg true wm g).nodes) ∧
    (∀ kk d, (kk, d) ∈ g.edges → d.last_transition_ts = none → d.active = true →
       (∀ d1, (kk.1, d1) ∈ g.nodes → d1.active = true ∧ staleNode cfg wm d1 = false) →
       (∀ d2, (kk.2, d2) ∈ g.nodes → d2.active = true ∧ staleNode cfg wm d2 = false) →
       (kk, d) ∈ (prune_graph cfg true wm g).edges) := by
  have hsoft : prune_graph cfg false wm g = markGraph cfg wm g := rfl
  have hhard : prune_graph cfg true wm g = hardPrune (markGraph cfg wm g) := rfl
  have hmarkN : ∀ k d, (k, d) ∈ g.nodes → d.last_visit_ts = none →
      (k, d) ∈ (markGraph cfg wm g).nodes := by
    intro k d h hn
    exact List.mem_map.mpr ⟨(k, d), h, by
      rw [if_neg]
      rw [staleNode_none cfg wm d hn]
      simp⟩
  have hmarkE : ∀ kk d, (kk, d) ∈ g.edges → d.last_transition_ts = none →
      (kk, d) ∈ (markGraph cfg wm g).edges := by
    intro kk d h hn
    exact List.mem_map.mpr ⟨(kk, d), h, by
      rw [if_neg]
      rw [staleEdge_none cfg wm d hn]
      simp⟩
  refine ⟨?_, ?_, ?_, ?_⟩
  · intro k d h hn
    rw [hsoft]
    exact hmarkN k d h hn
  · intro kk d h hn
    rw [hsoft]
    exact hmarkE kk d h hn
  · intro k d h hn ha
    rw [hhard]
    exact List.mem_filter.mpr ⟨hmarkN k d h hn, ha⟩
  · intro kk d h hn ha h1 h2
    rw [hhard]
    have hnomem : ∀ (k : String),
        (∀ d0, (k, d0) ∈ g.nodes → d0.active = true ∧ staleNode cfg wm d0 = false) →
        k ∉ ((markGraph cfg wm g).nodes.filter (fun p => !p.2.active)).map (·.1) := by
      intro k hk hmem
      obtain ⟨q, hq, hq1⟩ := List.mem_map.mp hmem
      have hqf := List.mem_filter.mp hq
      obtain ⟨q0, hq0, hfq0⟩ := List.mem_map.mp hqf.1
      have hk0 : q0.1 = k := by
        by_cases hs : staleNode cfg wm q0.2 = true
        · rw [if_pos hs] at hfq0; rw [← hq1, ← hfq0]
        · rw [if_neg hs] at hfq0; rw [← hq1, ← hfq0]
      have hq0mem : (k, q0.2) ∈ g.nodes := by
        rw [← hk0]
        exact hq0
      have hprops := hk q0.2 hq0mem
      have : q = q0 := by
        rw [if_neg (by rw [hprops.2]; simp)] at hfq0
        exact hfq0.symm
      rw [this] at hqf
      rw [hprops.1] at hqf
      exact absurd hqf.2 (by simp)
    apply List.mem_filter.mpr
    refine ⟨?_, ha⟩
    apply List.mem_filter.mpr
    refine ⟨hmarkE kk d h hn, ?_⟩
    simp only [Bool.and_eq_true, Bool.not_eq_true', decide_eq_false_iff_not]
    exact ⟨hnomem kk.1 h1, hnomem kk.2 h2⟩

/-- Witness for C10's amended statement: a null-timestamp active node and
edge survive a hard prune whose endpoints are healthy. -/
theorem c10_null_ts_skipped_witness :
    ("v", { visits_30d := 0, visits_365d := 0, last_visit_ts := none,
            score := 0, active := true }) ∈
      (prune_graph ⟨19/20, 3, 60⟩ true (10 * 1440)
        ⟨[("u", { visits_30d := 5, visits_365d := 5, last_visit_ts := some (9 * 1440),
                  score := 0, active := true }),
          ("v", { visits_30d := 0, visits_365d := 0, last_visit_ts := none,
                  score := 0, active := true })],
         [(("u", "v"), { transitions_30d := 0, transitions_365d := 0,
                         last_transition_ts := none, time_buckets := [],
                         score := 0, active := true })]⟩ : Graph).nodes ∧
    (("u", "v"), { transitions_30d := 0, transitions_365d := 0,
                   last_transition_ts := none, time_buckets := [],
                   score := 0, active := true }) ∈
      (prune_graph ⟨19/20, 3, 60⟩ true (10 * 1440)
        ⟨[("u", { visits_30d := 5, visits_365d := 5, last_visit_ts := some (9 * 1440),
                  score := 0, active := true }),
          ("v", { visits_30d := 0, visits_365d := 0, last_visit_ts := none,
                  score := 0, active := true })],
         [(("u", "v"), { transitions_30d := 0, transitions_365d := 0,
                         last_transition_ts := none, time_buckets := [],
                         score := 0, active := true })]⟩ : Graph).edges := by
  have h := c10_null_ts_skipped ⟨19/20, 3, 60⟩ (10 * 1440)
    ⟨[("u", { visits_30d := 5, visits_365d := 5, last_visit_ts := some (9 * 1440),
              score := 0, active := true }),
      ("v", { visits_30d := 0, visits_365d := 0, last_visit_ts := none,
              score := 0, active := true })],
     [(("u", "v"), { transitions_30d := 0, transitions_365d := 0,
                     last_transition_ts := none, time_buckets := [],
                     score := 0, active := true })]⟩
  constructor
  · exact h.2.2.1 "v"
      { visits_30d := 0, visits_365d := 0, last_visit_ts := none,
        score := 0, active := true } (by decide) rfl rfl
  · exact h.2.2.2 ("u", "v")
      { transitions_30d := 0, transitions_365d := 0,
        last_transition_ts := none, time_buckets := [],
        score := 0, active := true } (by decide) rfl rfl
      (by
        intro d1 hd1
        simp only [List.mem_cons, List.not_mem_nil, or_false, Prod.mk.injEq] at hd1
        rcases hd1 with ⟨_, rfl⟩ | ⟨hv, rfl⟩
        · exact ⟨rfl, by decide⟩
        · exact absurd hv (by decide))
      (by
        intro d2 hd2
        simp only [List.mem_cons, List.not_mem_nil, or_false, Prod.mk.injEq] at hd2
        rcases hd2 with ⟨hu, rfl⟩ | ⟨_, rfl⟩
        · exact absurd hu (by decide)
        · exact ⟨rfl, by decide⟩)

/-! ## QueryEngine: `mcp_location_server.py`

Python's `sorted`/`list.sort` is a stable sort; with `reverse=True` and
key `x[1]` the result is the unique descending reordering in which
entries with equal keys keep their original relative order.  `sortDesc`
below is a stable insertion sort with exactly that semantics. -/

/-- Insert `x` before the first element whose key is not greater than
`x`'s key (stable descending insertion). -/
def insertDesc {α β : Type} [LinearOrder β] (x : α × β) : List (α × β) → List (α × β)
  | [] => [x]
  | y :: ys => if x.2 < y.2 then y :: insertDesc x ys else x :: y :: ys

/-- Stable descending sort by the second component, the semantics of
`sorted(l, key=lambda x: x[1], reverse=True)`. -/
def sortDesc {α β : Type} [LinearOrder β] (l : List (α × β)) : List (α × β) :=
  l.foldr insertDesc []

theorem insertDesc_eq {α β : Type} [LinearOrder β] (x : α × β) (l : List (α × β)) :
    insertDesc x l =
      l.takeWhile (fun y => decide (x.2 < y.2)) ++
        x :: l.dropWhile (fun y => decide (x.2 < y.2)) := by
  induction l with
  | nil => rfl
  | cons y ys ih =>
      by_cases h : x.2 < y.2
      · rw [insertDesc, if_pos h, ih,
          List.takeWhile_cons_of_pos (by simp [h]),
          List.dropWhile_cons_of_pos (by simp [h])]
        rfl
      · rw [insertDesc, if_neg h,
          List.takeWhile_cons_of_neg (by simp [h]),
          List.dropWhile_cons_of_neg (by simp [h])]
        rfl

theorem insertDesc_perm {α β : Type} [LinearOrder β] (x : α × β) (l : List (α × β)) :
    List.Perm (insertDesc x l) (x :: l) := by
  rw [insertDesc_eq]
  have h1 : List.Perm
      (l.takeWhile (fun y => decide (x.2 < y.2)) ++
        x :: l.dropWhile (fun y => decide (x.2 < y.2)))
      (x :: (l.takeWhile (fun y => decide (x.2 < y.2)) ++
        l.dropWhile (fun y => decide (x.2 < y.2)))) := List.perm_middle
  rw [List.takeWhile_append_dropWhile] at h1
  exact h1

theorem sortDesc_perm {α β : Type} [LinearOrder β] (l : List (α × β)) :
    List.Perm (sortDesc l) l := by
  induction l with
  | nil => exact List.Perm.refl _
  | cons x xs ih =>
      have h1 : List.Perm (sortDesc (x :: xs)) (x :: sortDesc xs) := insertDesc_perm ..
      exact h1.trans (List.Perm.cons x ih)

theorem insertDesc_pairwise {α β : Type} [LinearOrder β] (x : α × β)
    {l : List (α × β)} (h : l.Pairwise (fun a b => b.2 ≤ a.2)) :
    (insertDesc x l).Pairwise (fun a b => b.2 ≤ a.2) := by
  induction l with
  | nil => simp [insertDesc]
  | cons y ys ih =>
      rw [insertDesc]
      rcases List.pairwise_cons.mp h with ⟨hy, hys⟩
      by_cases hxy : x.2 < y.2
      · rw [if_pos hxy]
        apply List.pairwise_cons.mpr
        refine ⟨?_, ih hys⟩
        intro z hz
        rcases List.mem_cons.mp ((insertDesc_perm x ys).mem_iff.mp hz) with rfl | hz'
        · exact le_of_lt hxy
        · exact hy z hz'
      · rw [if_neg hxy]
        apply List.pairwise_cons.mpr
        refine ⟨?_, h⟩
        intro z hz
        rcases List.mem_cons.mp hz with rfl | hz'
        · exact le_of_not_lt hxy
        · exact le_trans (hy z hz') (le_of_not_lt hxy)

theorem sortDesc_pairwise {α β : Type} [LinearOrder β] (l : List (α × β)) :
    (sortDesc l).Pairwise (fun a b => b.2 ≤ a.2) := by
  induction l with
  | nil => simp [sortDesc]
  | cons x xs ih => exact insertDesc_pairwise x ih

theorem sortDesc_filter_eq {α β : Type} [LinearOrder β] [DecidableEq β]
    (l : List (α × β)) (c : β) :
    (sortDesc l).filter (fun y => decide (y.2 = c)) =
      l.filter (fun y => decide (y.2 = c)) := by
  induction l with
  | nil => rfl
  | cons x xs ih =>
      show (insertDesc x (sortDesc xs)).filter _ = _
      rw [insertDesc_eq, List.filter_append]
      by_cases hx : x.2 = c
      · have htw : (((sortDesc xs).takeWhile
            (fun y => decide (x.2 < y.2))).filter (fun y => decide (y.2 = c))) = [] := by
          rw [List.filter_eq_nil_iff]
          intro a ha
          have := List.mem_takeWhile_imp ha
          simp only [decide_eq_true_eq] at this ⊢
          intro hac
          rw [hac, hx] at this
          exact lt_irrefl c this
        rw [htw, List.nil_append, List.filter_cons_of_pos (by simp [hx])]
        have hdw := @List.filter_append _ (fun y => decide (y.2 = c))
          ((sortDesc xs).takeWhile (fun y => decide (x.2 < y.2)))
          ((sortDesc xs).dropWhile (fun y => decide (x.2 < y.2)))
        rw [htw, List.nil_append] at hdw
        rw [← hdw, List.takeWhile_append_dropWhile, ih,
          List.filter_cons_of_pos (by simp [hx])]
      · rw [List.filter_cons_of_neg (by simp [hx])]
        rw [← List.filter_append, List.takeWhile_append_dropWhile, ih,
          List.filter_cons_of_neg (by simp [hx])]

/-- Per-node contribution in `top_locations` (lines 164-171): the
decayed short-window counter when the last visit lies inside the
look-back window ending at `now`, else 0. -/
def nodeContribution (now days : Int) (d : NodeData) : ℚ :=
  match d.last_visit_ts with
  | some t => if now - days * minutesPerDay ≤ t then d.visits_30d else 0
  | none => 0

/-- The `(node id, contribution)` pairs, in graph iteration order. -/
def scoredNodes (now days : Int) (g : Graph) : List (String × ℚ) :=
  g.nodes.map (fun p => (p.1, nodeContribution now days p.2))

/-- `top_locations(days, n)` (lines 143-174): rank every node by its
window contribution with Python's stable descending sort and return the
first `n` ids.  `now` (UTC wall clock in the source) is passed
explicitly. -/
def top_locations (now days : Int) (n : Nat) (g : Graph) : List String :=
  ((sortDesc (scoredNodes now days g)).take n).map (·.1)

/-- Defaulting of `next_location`'s `weekday`/`hour` (lines 207-210): if
either is omitted, both are replaced by the current UTC weekday and
hour. -/
def resolveWH (weekday hour : Option Int) (nowW nowH : Int) : Int × Int :=
  match weekday, hour with
  | some w, some h => (w, h)
  | _, _ => (nowW, nowH)

/-- `G.out_edges(current_place, data=True)`: the outgoing edges of a
node, in adjacency (insertion) order. -/
def outEdges (g : Graph) (p : String) : List (String × EdgeData) :=
  (g.edges.filter (fun e => decide (e.1.1 = p))).map (fun e => (e.1.2, e.2))

/-- Candidate score of one outgoing edge (lines 215-217):
`score + 0.1 * time_buckets.get(bucket, 0)`. -/
def candScore (bucket : String) (d : EdgeData) : ℚ :=
  d.score + (1/10 : ℚ) * (bucketGet d.time_buckets bucket : ℚ)

/-- The `(destination, candidate score)` pairs of `next_location`, in
adjacency order. -/
def candidatesOf (g : Graph) (cur : String) (bucket : String) : List (String × ℚ) :=
  (outEdges g cur).map (fun p => (p.1, candScore bucket p.2))

/-- `next_location(current_place, weekday, hour, top_k)` (lines
177-221).  `none` models the raised `ValueError` (`NotFound`) for an
unknown `current_place`; the current UTC weekday and hour are passed
explicitly. -/
def next_location (g : Graph) (cur : String) (weekday hour : Option Int)
    (nowW nowH : Int) (topK : Nat) : Option (List (String × ℚ)) :=
  match getA g.nodes cur with
  | none => none
  | some _ =>
      let wh := resolveWH weekday hour nowW nowH
      some ((sortDesc (candidatesOf g cur (mkBucket wh.1 wh.2))).take topK)

/-! ## Claim C5: tie-breaking in the ranking queries -/

/-- Counterexample to C5: two nodes with identical attributes, inserted
as "b" then "a".  Both contributions are equal, yet `top_locations`
returns them in insertion order `["b", "a"]`, not ascending identifier
order — Python's stable sort keeps iteration order on ties. -/
theorem c5_counterexample :
    top_locations (40 * 1440) 30 3
      ⟨[("b", { visits_30d := 2, visits_365d := 2, last_visit_ts := some (39 * 1440),
                score := 0, active := true }),
        ("a", { visits_30d := 2, visits_365d := 2, last_visit_ts := some (39 * 1440),
                score := 0, active := true })], []⟩ = ["b", "a"] ∧
    ("a" < "b") := by
  constructor
  · rfl
  · rw [String.lt_iff_toList_lt]
    decide

/-- C5 amended: in `top_locations` and `next_location` the ranked list
is Python's stable descending sort of the entries in graph iteration
(insertion) order: it is sorted by descending score, and entries with
equal scores appear in iteration order, not ascending-identifier order
(deterministic for a given stored graph). -/
theorem c5_ties_follow_iteration_order (now days : Int) (n : Nat) (g : Graph)
    (cur : String) (weekday hour : Option Int) (nowW nowH : Int) (topK : Nat) :
    (top_locations now days n g =
       ((sortDesc (scoredNodes now days g)).take n).map (·.1)) ∧
    ((sortDesc (scoredNodes now days g)).Pairwise (fun a b => b.2 ≤ a.2)) ∧
    (∀ c : ℚ, (sortDesc (scoredNodes now days g)).filter (fun y => decide (y.2 = c)) =
       (scoredNodes now days g).filter (fun y => decide (y.2 = c))) ∧
    (∀ d, getA g.nodes cur = some d →
       next_location g cur weekday hour nowW nowH topK =
         some ((sortDesc (candidatesOf g cur
           (mkBucket (resolveWH weekday hour nowW nowH).1
             (resolveWH weekday hour nowW nowH).2))).take topK)) ∧
    ((sortDesc (candidatesOf g cur
        (mkBucket (resolveWH weekday hour nowW nowH).1
          (resolveWH weekday hour nowW nowH).2))).Pairwise (fun a b => b.2 ≤ a.2)) ∧
    (∀ c : ℚ, (sortDesc (candidatesOf g cur
        (mkBucket (resolveWH weekday hour nowW nowH).1
          (resolveWH weekday hour nowW nowH).2))).filter (fun y => decide (y.2 = c)) =
       (candidatesOf g cur
        (mkBucket (resolveWH weekday hour nowW nowH).1
          (resolveWH weekday hour nowW nowH).2)).filter (fun y => decide (y.2 = c))) := by
  refine ⟨rfl, sortDesc_pairwise _, fun c => sortDesc_filter_eq _ c, ?_,
    sortDesc_pairwise _, fun c => sortDesc_filter_eq _ c⟩
  intro d hd
  rw [next_location, hd]

/-- Witness for C5's amended statement at the counterexample graph,
with the stability equation instantiated at the tied score 2. -/
theorem c5_ties_follow_iteration_order_witness :
    ((sortDesc (scoredNodes (40 * 1440) 30
      ⟨[("b", { visits_30d := 2, visits_365d := 2, last_visit_ts := some (39 * 1440),
                score := 0, active := true }),
        ("a", { visits_30d := 2, visits_365d := 2, last_visit_ts := some (39 * 1440),
                score := 0, active := true })], []⟩)).filter
          (fun y => decide (y.2 = (2 : ℚ))) =
      (scoredNodes (40 * 1440) 30
      ⟨[("b", { visits_30d := 2, visits_365d := 2, last_visit_ts := some (39 * 1440),
                score := 0, active := true }),
        ("a", { visits_30d := 2, visits_365d := 2, last_visit_ts := some (39 * 1440),
                score := 0, active := true })], []⟩).filter
          (fun y => decide (y.2 = (2 : ℚ)))) ∧
    (next_location
      ⟨[("b", { visits_30d := 2, visits_365d := 2, last_visit_ts := some (39 * 1440),
                score := 0, active := true }),
        ("a", { visits_30d := 2, visits_365d := 2, last_visit_ts := some (39 * 1440),
                score := 0, active := true })], []⟩ "b" (some 2) (some 14) 0 0 3 =
      some ((sortDesc (candidatesOf
        ⟨[("b", { visits_30d := 2, visits_365d := 2, last_visit_ts := some (39 * 1440),
                  score := 0, active := true }),
          ("a", { visits_30d := 2, visits_365d := 2, last_visit_ts := some (39 * 1440),
                  score := 0, active := true })], []⟩ "b"
        (mkBucket (resolveWH (some 2) (some 14) 0 0).1
          (resolveWH (some 2) (some 14) 0 0).2))).take 3)) := by
  have h := c5_ties_follow_iteration_order (40 * 1440) 30 3
    ⟨[("b", { visits_30d := 2, visits_365d := 2, last_visit_ts := some (39 * 1440),
              score := 0, active := true }),
      ("a", { visits_30d := 2, visits_365d := 2, last_visit_ts := some (39 * 1440),
              score := 0, active := true })], []⟩ "b" (some 2) (some 14) 0 0 3
  exact ⟨h.2.2.1 2, h.2.2.2.1
    { visits_30d := 2, visits_365d := 2, last_visit_ts := some (39 * 1440),
      score := 0, active := true } rfl⟩

/-! ## Claim C6: the `next_location` contract -/

/-- C6: `next_location` fails (`None`, modelling the raised
`ValueError`) iff `current_place` is absent from the graph; a present
place with no outgoing edges yields the empty list, not an error; and
every returned pair's score is `edge.score + 0.1 *
time_buckets.get(bucket, 0)` for its outgoing edge, with at most `top_k`
pairs returned. -/
theorem c6_next_location_contract (g : Graph) (cur : String)
    (weekday hour : Option Int) (nowW nowH : Int) (topK : Nat) :
    (next_location g cur weekday hour nowW nowH topK = none ↔
      cur ∉ g.nodes.map (·.1)) ∧
    (cur ∈ g.nodes.map (·.1) → outEdges g cur = [] →
      next_location g cur weekday hour nowW nowH topK = some []) ∧
    (∀ l, next_location g cur weekday hour nowW nowH topK = some l →
      l.length ≤ topK ∧
      ∀ p ∈ l, ∃ ed, ((cur, p.1), ed) ∈ g.edges ∧
        p.2 = candScore (mkBucket (resolveWH weekday hour nowW nowH).1
          (resolveWH weekday hour nowW nowH).2) ed) := by
  refine ⟨?_, ?_, ?_⟩
  · cases hg : getA g.nodes cur with
    | none =>
        constructor
        · intro _
          exact (getA_eq_none_iff g.nodes cur).mp hg
        · intro _
          rw [next_location, hg]
    | some d =>
        constructor
        · intro h
          rw [next_location, hg] at h
          exact absurd h (by simp)
        · intro h
          rw [(getA_eq_none_iff g.nodes cur).mpr h] at hg
          exact absurd hg (by simp)
  · intro hmem hout
    cases hg : getA g.nodes cur with
    | none => exact absurd hmem ((getA_eq_none_iff g.nodes cur).mp hg)
    | some d =>
        rw [next_location, hg]
        simp [candidatesOf, hout, sortDesc]
  · intro l hl
    cases hg : getA g.nodes cur with
    | none =>
        rw [next_location, hg] at hl
        exact absurd hl (by simp)
    | some d =>
        rw [next_location, hg] at hl
        simp only [Option.some.injEq] at hl
        subst hl
        constructor
        · rw [List.length_take]
          exact min_le_left ..
        · intro p hp
          have hp1 : p ∈ sortDesc (candidatesOf g cur
              (mkBucket (resolveWH weekday hour nowW nowH).1
                (resolveWH weekday hour nowW nowH).2)) :=
            List.take_subset _ _ hp
          have hp2 := (sortDesc_perm _).mem_iff.mp hp1
          obtain ⟨q, hq, hq1⟩ := List.mem_map.mp hp2
          obtain ⟨e, he, he1⟩ := List.mem_map.mp hq
          have hef := List.mem_filter.mp he
          have hcur : e.1.1 = cur := by
            have := hef.2
            simpa using this
          refine ⟨e.2, ?_, ?_⟩
          · have : ((cur, p.1), e.2) = e := by
              have hfst : p.1 = e.1.2 := by
                rw [← hq1, ← he1]
              apply Prod.ext
              · rw [hfst, ← hcur]
              · rfl
            rw [this]
            exact hef.1
          · rw [← hq1, ← he1]
  -- end of contract proof

/-- Witness for C6 on a concrete graph: an unknown place errors, a known
place without outgoing edges yields the empty list. -/
theorem c6_next_location_contract_witness :
    (next_location
      ⟨[("x", defaultNode), ("lonely", defaultNode)],
       [(("x", "lonely"), defaultEdge)]⟩ "ghost" none none 0 0 3 = none) ∧
    (next_location
      ⟨[("x", defaultNode), ("lonely", defaultNode)],
       [(("x", "lonely"), defaultEdge)]⟩ "lonely" none none 0 0 3 = some []) := by
  have h1 := c6_next_location_contract
    ⟨[("x", defaultNode), ("lonely", defaultNode)],
     [(("x", "lonely"), defaultEdge)]⟩ "ghost" none none 0 0 3
  have h2 := c6_next_location_contract
    ⟨[("x", defaultNode), ("lonely", defaultNode)],
     [(("x", "lonely"), defaultEdge)]⟩ "lonely" none none 0 0 3
  exact ⟨h1.1.mpr (by decide), h2.2.1 (by decide) (by decide)⟩

/-! ## Claim C9: partially supplied weekday/hour -/

/-- C9: when exactly one of `weekday` and `hour` is supplied to
`next_location`, the supplied value is ignored — the `weekday is None or
hour is None` test replaces both with the current UTC values, so the
result equals a call with both omitted. -/
theorem c9_partial_time_ignored (g : Graph) (cur : String) (w h : Int)
    (nowW nowH : Int) (topK : Nat) :
    next_location g cur (some w) none nowW nowH topK =
      next_location g cur none none nowW nowH topK ∧
    next_location g cur none (some h) nowW nowH topK =
      next_location g cur none none nowW nowH topK :=
  ⟨rfl, rfl⟩

/-! ## Claim C8: no weekday validation in `top_locations_weekday` -/

/-- Python `s.startswith(pat)` over the character lists. -/
def listStarts : List Char → List Char → Bool
  | _, [] => true
  | [], _ :: _ => false
  | c :: cs, p :: ps => decide (c = p) && listStarts cs ps

/-- Python `bucket.startswith(pat)`. -/
def strStarts (s pat : String) : Bool := listStarts s.data pat.data

/-- Python `dest_counts[dst] = dest_counts.get(dst, 0) + cnt`. -/
def bumpCount (acc : List (String × Nat)) (dst : String) (cnt : Nat) :
    List (String × Nat) :=
  setA acc dst ((getA acc dst).getD 0 + cnt)

/-- Inner loop body of `top_locations_weekday` (lines 244-246): count a
bucket toward the destination when its key starts with the weekday
pattern. -/
def twdInner (pat dst : String) (acc : List (String × Nat)) (bc : String × Nat) :
    List (String × Nat) :=
  if strStarts bc.1 pat then bumpCount acc dst bc.2 else acc

/-- Outer loop body: all buckets of one edge, credited to its
destination. -/
def twdOuter (pat : String) (acc : List (String × Nat)) (e : (String × String) × EdgeData) :
    List (String × Nat) :=
  e.2.time_buckets.foldl (twdInner pat e.1.2) acc

/-- `top_locations_weekday(weekday, n)` (lines 225-248): sum the bucket
counts whose key starts with `f"{weekday}_"` per destination, then rank
descending.  There is no validation and no failure path: the result is
always a list. -/
def top_locations_weekday (weekday : Int) (n : Nat) (g : Graph) :
    List (String × Nat) :=
  let pat := toString weekday ++ "_"
  (sortDesc (g.edges.foldl (twdOuter pat) [])).take n

/-- Counterexample to C8: `top_locations_weekday` performs no range
check — called with weekday 7 it returns an ordinary (here empty)
result list instead of failing, while weekday 1 on the same graph
returns its ordinary aggregation; the source has no raise statement at
all in this function. -/
theorem c8_counterexample :
    top_locations_weekday 7 5
      ⟨[("a", defaultNode), ("b", defaultNode)],
       [(("a", "b"), { transitions_30d := 1, transitions_365d := 1,
                       last_transition_ts := some 0,
                       time_buckets := [("1_0", 4)],
                       score := 0, active := true })]⟩ = [] ∧
    top_locations_weekday 1 5
      ⟨[("a", defaultNode), ("b", defaultNode)],
       [(("a", "b"), { transitions_30d := 1, transitions_365d := 1,
                       last_transition_ts := some 0,
                       time_buckets := [("1_0", 4)],
                       score := 0, active := true })]⟩ = [("b", 4)] := by
  exact ⟨rfl, rfl⟩

/-- Bucket keys as produced by `update_graph` are `D_H` with D∈[0,6]. -/
def wellFormedBuckets (g : Graph) : Prop :=
  ∀ e ∈ g.edges, ∀ bc ∈ e.2.time_buckets, ∃ d h : Int,
    0 ≤ d ∧ d ≤ 6 ∧ 0 ≤ h ∧ h ≤ 23 ∧ bc.1 = mkBucket d h

theorem toString_weekday_digit (d : Int) (h0 : 0 ≤ d) (h6 : d ≤ 6) :
    ∃ c, (toString d).data = [c] ∧ (c = '7' → False) := by
  interval_cases d
  · exact ⟨'0', by decide, by decide⟩
  · exact ⟨'1', by decide, by decide⟩
  · exact ⟨'2', by decide, by decide⟩
  · exact ⟨'3', by decide, by decide⟩
  · exact ⟨'4', by decide, by decide⟩
  · exact ⟨'5', by decide, by decide⟩
  · exact ⟨'6', by decide, by decide⟩

theorem bucket_not_starts_seven (d h : Int) (hd0 : 0 ≤ d) (hd6 : d ≤ 6) :
    strStarts (mkBucket d h) (toString (7 : Int) ++ "_") = false := by
  obtain ⟨c, hc, hc7⟩ := toString_weekday_digit d hd0 hd6
  rw [strStarts, mkBucket]
  have hu : ("_" : String).data = ['_'] := by decide
  have hdata : (toString d ++ "_" ++ toString h).data =
      c :: '_' :: (toString h).data := by
    rw [String.data_append, String.data_append, hc, hu]
    rfl
  have hpat : (toString (7 : Int) ++ "_").data = ['7', '_'] := by decide
  rw [hdata, hpat]
  show (decide (c = '7') && listStarts ('_' :: (toString h).data) ['_']) = false
  rw [decide_eq_false hc7]
  simp

theorem twd_fold_inner_id (pat dst : String) (tbs : List (String × Nat))
    (h : ∀ bc ∈ tbs, strStarts bc.1 pat = false) :
    ∀ acc, tbs.foldl (twdInner pat dst) acc = acc := by
  induction tbs with
  | nil => intro acc; rfl
  | cons bc rest ih =>
      intro acc
      rw [List.foldl_cons]
      have hstep : twdInner pat dst acc bc = acc := by
        rw [twdInner, h bc (by simp)]
        rfl
      rw [hstep]
      exact ih (fun b hb => h b (by simp [hb])) acc

/-- C8 amended: `top_locations_weekday` does not validate its weekday
argument and never fails; an out-of-range weekday merely selects no
buckets.  For weekday 7 on any graph whose bucket keys are well-formed
`D_H` keys (D∈[0,6]) the result is the empty list, not an error. -/
theorem c8_out_of_range_weekday (n : Nat) (g : Graph) (hwf : wellFormedBuckets g) :
    top_locations_weekday 7 n g = [] := by
  have houter : ∀ (es : List ((String × String) × EdgeData)),
      (∀ e ∈ es, ∀ bc ∈ e.2.time_buckets, ∃ d h : Int,
        0 ≤ d ∧ d ≤ 6 ∧ 0 ≤ h ∧ h ≤ 23 ∧ bc.1 = mkBucket d h) →
      ∀ acc, es.foldl (twdOuter (toString (7 : Int) ++ "_")) acc = acc := by
    intro es
    induction es with
    | nil => intro _ acc; rfl
    | cons e rest ih =>
        intro h acc
        rw [List.foldl_cons]
        have hstep : twdOuter (toString (7 : Int) ++ "_") acc e = acc := by
          rw [twdOuter]
          apply twd_fold_inner_id
          intro bc hbc
          obtain ⟨d, hh, hd0, hd6, _, _, hkey⟩ := h e (by simp) bc hbc
          rw [hkey]
          exact bucket_not_starts_seven d hh hd0 hd6
        rw [hstep]
        exact ih (fun e' he' => h e' (by simp [he'])) acc
  rw [top_locations_weekday]
  rw [houter g.edges hwf []]
  simp [sortDesc]

/-- Witness for C8's amended statement at a concrete well-formed
graph. -/
theorem c8_out_of_range_weekday_witness :
    top_locations_weekday 7 3
      ⟨[("a", defaultNode), ("b", defaultNode)],
       [(("a", "b"), { transitions_30d := 1, transitions_365d := 1,
                       last_transition_ts := some 0,
                       time_buckets := [("2_14", 3)],
                       score := 0, active := true })]⟩ = [] :=
  c8_out_of_range_weekday 3
    ⟨[("a", defaultNode), ("b", defaultNode)],
     [(("a", "b"), { transitions_30d := 1, transitions_365d := 1,
                     last_transition_ts := some 0,
                     time_buckets := [("2_14", 3)],
                     score := 0, active := true })]⟩
    (by
      intro e he bc hbc
      simp only [List.mem_cons, List.not_mem_nil, or_false] at he hbc
      subst he
      simp only [List.mem_cons, List.not_mem_nil, or_false] at hbc
      subst hbc
      exact ⟨2, 14, by decide, by decide, by decide, by decide, by decide⟩)

end LocationProfiler
